import Mathlib

/- Shallow embedding of the xtrans watermark-removal pipeline
(src/xtrans.py, function remove_watermark_from_pdf, and src/app.py,
function remove_watermark_and_convert; the two functions share the same
page-processing core).  A raster page image is modelled as its pixel
dimensions, a color mode and a pixel map.  PIL Image.getpixel raises
IndexError out of bounds, modelled as Option; ImageDraw point silently
clips out-of-canvas writes, modelled as a discarded write.  The global
random source is modelled as an explicit oracle assigning to each pixel
coordinate its draws: the randint 0..2 color choice and the three
randint -2..2 channel offsets. -/

namespace Xtrans

/-- PIL color mode of a rasterized page: RGB (3 channels), RGBA
(4 channels), or grayscale L (1 channel, a bare int pixel in PIL). -/
inductive Mode
  | RGB
  | RGBA
  | L
deriving DecidableEq

/-- Number of color channels of a mode. -/
def Mode.channels : Mode → Nat
  | .RGB => 3
  | .RGBA => 4
  | .L => 1

/-- A decoded raster page image (the PageImage of the data model):
pixel dimensions, color mode and pixel map.  A pixel is the list of its
channel values. -/
@[ext]
structure Img where
  width : Nat
  height : Nat
  mode : Mode
  px : Int → Int → List Int

/-- The coordinate pair lies on the image canvas. -/
def Img.inCanvas (img : Img) (x y : Int) : Prop :=
  0 ≤ x ∧ x < (img.width : Int) ∧ 0 ≤ y ∧ y < (img.height : Int)

instance (img : Img) (x y : Int) : Decidable (img.inCanvas x y) := by
  unfold Img.inCanvas
  exact inferInstance

/-- PIL Image.getpixel: the pixel value in bounds, IndexError (none)
out of bounds. -/
def getpixel (img : Img) (x y : Int) : Option (List Int) :=
  if img.inCanvas x y then some (img.px x y) else none

/-- PIL ImageDraw point (draw.point((x, y), fill=color)): writes the
color at (x, y); writes outside the canvas are clipped away. -/
def drawPoint (img : Img) (x y : Int) (c : List Int) : Img :=
  if img.inCanvas x y then
    { img with px := fun a b => if a = x ∧ b = y then c else img.px a b }
  else img

/-- Watermark rectangle left edge, src/xtrans.py line 53:
x1 = width - watermark_width with watermark_width = 150. -/
def wmX1 (width : Nat) : Int := (width : Int) - 150

/-- Watermark rectangle top edge, src/xtrans.py line 54:
y1 = height - watermark_height with watermark_height = 35. -/
def wmY1 (height : Nat) : Int := (height : Int) - 35

/-- Watermark rectangle right edge, src/xtrans.py line 55: x2 = width. -/
def wmX2 (width : Nat) : Int := (width : Int)

/-- Watermark rectangle bottom edge, src/xtrans.py line 56: y2 = height. -/
def wmY2 (height : Nat) : Int := (height : Int)

/-- Membership in the watermark rectangle: the pixels visited by the
fill loops, x1 <= x < x2 and y1 <= y < y2. -/
def inRect (width height : Nat) (x y : Int) : Prop :=
  wmX1 width ≤ x ∧ x < wmX2 width ∧ wmY1 height ≤ y ∧ y < wmY2 height

instance (w h : Nat) (x y : Int) : Decidable (inRect w h x y) := by
  unfold inRect
  exact inferInstance

/-- The random draws consumed for one pixel of the fill loop:
choice = random.randint(0, 2) and the three channel offsets
random.randint(-2, 2) (src/xtrans.py lines 74 and 84 to 86). -/
structure Noise where
  choice : Nat
  dr : Int
  dg : Int
  db : Int

/-- Channel clamping, src/xtrans.py lines 84 to 86: max(0, min(255, v)). -/
def clamp255 (v : Int) : Int := max 0 (min 255 v)

/-- Reference color selection, src/xtrans.py lines 75 to 80: choice 0
picks the bottom-right reference, choice 1 the top one, anything else
the left one. -/
def pickColor (pixel_bottom_right pixel_top pixel_left : List Int) (choice : Nat) : List Int :=
  if choice = 0 then pixel_bottom_right
  else if choice = 1 then pixel_top
  else pixel_left

/-- Color perturbation, src/xtrans.py lines 83 to 87: when the color is
a tuple of at least 3 components, clamp-perturb the first three channels
and keep a fourth component unchanged; otherwise leave the color as is. -/
def noisyColor (color : List Int) (d : Noise) : List Int :=
  if 3 ≤ color.length then
    let r := clamp255 (color.getD 0 0 + d.dr)
    let g := clamp255 (color.getD 1 0 + d.dg)
    let b := clamp255 (color.getD 2 0 + d.db)
    if color.length = 3 then [r, g, b] else [r, g, b, color.getD 3 0]
  else color

/-- The color written to one pixel of the fill loop body,
src/xtrans.py lines 74 to 87. -/
def fillColor (pbr pt pl : List Int) (d : Noise) : List Int :=
  noisyColor (pickColor pbr pt pl d.choice) d

/-- Helper for intRange: the n consecutive integers starting at lo. -/
def intRangeGo (lo : Int) : Nat → List Int
  | 0 => []
  | n + 1 => lo :: intRangeGo (lo + 1) n

/-- Python range(lo, hi) over integers. -/
def intRange (lo hi : Int) : List Int :=
  intRangeGo lo (hi - lo).toNat

/-- Coordinates visited by the source loops, src/xtrans.py lines 71
and 72: x outer, y inner. -/
def coordsXY (x1 x2 y1 y2 : Int) : List (Int × Int) :=
  (intRange x1 x2).flatMap (fun x => (intRange y1 y2).map (fun y => (x, y)))

/-- Coordinates visited with the two loops interchanged: y outer,
x inner. -/
def coordsYX (x1 x2 y1 y2 : Int) : List (Int × Int) :=
  (intRange y1 y2).flatMap (fun y => (intRange x1 x2).map (fun x => (x, y)))

/-- Sequential execution of the fill loop body over a coordinate list. -/
def fillList (img : Img) (pbr pt pl : List Int) (rnd : Int → Int → Noise)
    (cs : List (Int × Int)) : Img :=
  cs.foldl (fun im c => drawPoint im c.1 c.2 (fillColor pbr pt pl (rnd c.1 c.2))) img

/-- The double fill loop of src/xtrans.py lines 71 to 89, in source
order (x outer, y inner). -/
def fillRectXY (img : Img) (x1 x2 y1 y2 : Int) (pbr pt pl : List Int)
    (rnd : Int → Int → Noise) : Img :=
  fillList img pbr pt pl rnd (coordsXY x1 x2 y1 y2)

/-- The double fill loop with the two loop indices interchanged
(y outer, x inner). -/
def fillRectYX (img : Img) (x1 x2 y1 y2 : Int) (pbr pt pl : List Int)
    (rnd : Int → Int → Noise) : Img :=
  fillList img pbr pt pl rnd (coordsYX x1 x2 y1 y2)

/-- Per-pixel effect of PIL convert to RGB: identity on RGB pixels,
alpha dropped from RGBA pixels, gray replicated for mode L. -/
def rgbOf : Mode → List Int → List Int
  | Mode.RGB, c => c
  | Mode.RGBA, c => c.take 3
  | Mode.L, c => [c.getD 0 0, c.getD 0 0, c.getD 0 0]

/-- Mode normalization, src/xtrans.py lines 92 and 93: if image.mode is
not RGB, convert the image to RGB. -/
def convertRGB (img : Img) : Img :=
  if img.mode = Mode.RGB then img
  else { width := img.width, height := img.height, mode := Mode.RGB,
         px := fun a b => rgbOf img.mode (img.px a b) }

/-- Location of the bottom-right reference read, src/xtrans.py line 61:
(width - 1, height - 1). -/
def refLocBottomRight (img : Img) : Int × Int :=
  ((img.width : Int) - 1, (img.height : Int) - 1)

/-- Location of the top reference read, src/xtrans.py line 62:
(width - 1, y1 - 1). -/
def refLocTop (img : Img) : Int × Int :=
  ((img.width : Int) - 1, wmY1 img.height - 1)

/-- Location of the left reference read, src/xtrans.py line 63:
(x1 - 1, height - 1). -/
def refLocLeft (img : Img) : Int × Int :=
  (wmX1 img.width - 1, (img.height : Int) - 1)

/-- The three reference color reads, src/xtrans.py lines 61 to 63.  The
top and left reads are guarded by y1 > 0 and x1 > 0, falling back to the
bottom-right color; a failing getpixel (IndexError) aborts. -/
def sampleRefs (img : Img) : Option (List Int × List Int × List Int) :=
  Option.bind (getpixel img (refLocBottomRight img).1 (refLocBottomRight img).2)
    (fun pixel_bottom_right =>
      Option.bind
        (if 0 < wmY1 img.height then getpixel img (refLocTop img).1 (refLocTop img).2
         else some pixel_bottom_right)
        (fun pixel_top =>
          Option.bind
            (if 0 < wmX1 img.width then getpixel img (refLocLeft img).1 (refLocLeft img).2
             else some pixel_bottom_right)
            (fun pixel_left => some (pixel_bottom_right, pixel_top, pixel_left))))

/-- Processing of one page, src/xtrans.py lines 44 to 93: compute the
watermark rectangle from the page dimensions, sample the three
reference colors, run the fill loop, then normalize the mode to RGB. -/
def processImage (img : Img) (rnd : Int → Int → Noise) : Option Img :=
  Option.bind (sampleRefs img) (fun refs =>
    some (convertRGB (fillRectXY img (wmX1 img.width) (wmX2 img.width)
      (wmY1 img.height) (wmY2 img.height) refs.1 refs.2.1 refs.2.2 rnd)))

/-- The page loop, src/xtrans.py lines 41 to 96: process the pages in
order, each page with its own slice of the random source. -/
def processPages : List Img → (Nat → Int → Int → Noise) → Nat → Option (List Img)
  | [], _, _ => some []
  | img :: rest, rnd, i =>
    match processImage img (rnd i), processPages rest rnd (i + 1) with
    | some p, some ps => some (p :: ps)
    | _, _ => none

/-- Well-formed image: every canvas pixel has one channel value per
mode channel, each in 0..255. -/
def Img.WF (img : Img) : Prop :=
  ∀ x y : Int, img.inCanvas x y →
    (img.px x y).length = img.mode.channels ∧ ∀ v ∈ img.px x y, 0 ≤ v ∧ v ≤ 255

/-- The random oracle only produces draws that random.randint(0, 2) and
random.randint(-2, 2) can produce. -/
def Admissible (rnd : Int → Int → Noise) : Prop :=
  ∀ x y : Int, (rnd x y).choice ≤ 2 ∧
    -2 ≤ (rnd x y).dr ∧ (rnd x y).dr ≤ 2 ∧
    -2 ≤ (rnd x y).dg ∧ (rnd x y).dg ≤ 2 ∧
    -2 ≤ (rnd x y).db ∧ (rnd x y).db ≤ 2

/-- Slide width in EMU, src/xtrans.py line 103: Inches(10). -/
def slideWidthEMU : Int := 9144000

/-- Slide height in EMU, src/xtrans.py line 104: Inches(5.625). -/
def slideHeightEMU : Int := 5143500

/-- A picture placed on a slide: the image, its offset and its size
(the arguments of add_picture). -/
structure Picture where
  image : Img
  left : Int
  top : Int
  width : Int
  height : Int

/-- A slide: the list of its pictures. -/
structure Slide where
  pictures : List Picture

/-- The output deck: canvas size and ordered slides. -/
structure Presentation where
  slideWidth : Int
  slideHeight : Int
  slides : List Slide

/-- One slide built from one processed page, src/xtrans.py lines 110 to
119: a blank slide holding the image at the origin, scaled to the full
canvas. -/
def addFullPicture (im : Img) : Slide :=
  { pictures := [{ image := im, left := 0, top := 0,
                   width := slideWidthEMU, height := slideHeightEMU }] }

/-- Deck assembly, src/xtrans.py lines 100 to 119: a 10 by 5.625 inch
canvas, one slide per processed page, in order. -/
def buildPresentation (imgs : List Img) : Presentation :=
  { slideWidth := slideWidthEMU, slideHeight := slideHeightEMU,
    slides := imgs.map addFullPicture }

/-- Pipeline error kinds: rasterization failure (src/app.py lines 21 to
26 wraps it with its cause) and a per-page fault. -/
inductive ConvError
  | sourceUnreadable (cause : String)
  | pageFault

/-- The whole conversion, src/app.py lines 11 to 111: the rasterizer
result is the input (the rasterizer itself is the external pdf2image
dependency); a rasterization error is surfaced as sourceUnreadable with
its cause and nothing is produced; otherwise every page is processed in
order and the deck is assembled. -/
def remove_watermark_and_convert (raster : Except String (List Img))
    (rnd : Nat → Int → Int → Noise) : Except ConvError Presentation :=
  match raster with
  | .error e => .error (.sourceUnreadable e)
  | .ok images =>
    match processPages images rnd 0 with
    | none => .error .pageFault
    | some ps => .ok (buildPresentation ps)

/-- A concrete 160 by 40 RGB image with constant pixels. -/
def imgRGB : Img :=
  { width := 160, height := 40, mode := Mode.RGB, px := fun _ _ => [10, 20, 30] }

/-- A concrete 160 by 40 RGBA image with constant pixels. -/
def imgRGBA : Img :=
  { width := 160, height := 40, mode := Mode.RGBA, px := fun _ _ => [10, 20, 30, 40] }

/-- A concrete 1 by 1 RGB image, smaller than the watermark region. -/
def imgSmall : Img :=
  { width := 1, height := 1, mode := Mode.RGB, px := fun _ _ => [7, 8, 9] }

/-- A concrete 1000 by 700 RGB image (the spec scenario size). -/
def img1000 : Img :=
  { width := 1000, height := 700, mode := Mode.RGB, px := fun _ _ => [255, 255, 255] }

/-- A degenerate noise value. -/
def noise0 : Noise := { choice := 0, dr := 0, dg := 0, db := 0 }

/-- A constant random oracle. -/
def rnd0 : Int → Int → Noise := fun _ _ => noise0

/-- A constant per-page random oracle. -/
def pageRnd0 : Nat → Int → Int → Noise := fun _ => rnd0

/-- A default image for list indexing. -/
def defaultImg : Img :=
  { width := 0, height := 0, mode := Mode.RGB, px := fun _ _ => [] }

/-- A default slide for list indexing. -/
def defaultSlide : Slide := { pictures := [] }

lemma drawPoint_width (img : Img) (x y : Int) (c : List Int) :
    (drawPoint img x y c).width = img.width := by
  unfold drawPoint
  split <;> rfl

lemma drawPoint_height (img : Img) (x y : Int) (c : List Int) :
    (drawPoint img x y c).height = img.height := by
  unfold drawPoint
  split <;> rfl

lemma drawPoint_mode (img : Img) (x y : Int) (c : List Int) :
    (drawPoint img x y c).mode = img.mode := by
  unfold drawPoint
  split <;> rfl

lemma drawPoint_inCanvas (img : Img) (x y : Int) (c : List Int) (a b : Int) :
    (drawPoint img x y c).inCanvas a b ↔ img.inCanvas a b := by
  unfold Img.inCanvas
  rw [drawPoint_width, drawPoint_height]

lemma drawPoint_px_self (img : Img) (x y : Int) (c : List Int)
    (h : img.inCanvas x y) : (drawPoint img x y c).px x y = c := by
  unfold drawPoint
  rw [if_pos h]
  simp

lemma drawPoint_px_ne (img : Img) (x y : Int) (c : List Int) (a b : Int)
    (h : ¬ (a = x ∧ b = y)) : (drawPoint img x y c).px a b = img.px a b := by
  unfold drawPoint
  split
  · simp only [if_neg h]
  · rfl

lemma drawPoint_px_out (img : Img) (x y : Int) (c : List Int) (a b : Int)
    (h : ¬ img.inCanvas x y) : (drawPoint img x y c).px a b = img.px a b := by
  unfold drawPoint
  rw [if_neg h]

lemma fillList_width (pbr pt pl : List Int) (rnd : Int → Int → Noise) :
    ∀ (cs : List (Int × Int)) (img : Img),
      (fillList img pbr pt pl rnd cs).width = img.width := by
  intro cs
  induction cs with
  | nil => intro img; rfl
  | cons c cs ih =>
    intro img
    have hstep : fillList img pbr pt pl rnd (c :: cs) =
        fillList (drawPoint img c.1 c.2 (fillColor pbr pt pl (rnd c.1 c.2)))
          pbr pt pl rnd cs := rfl
    rw [hstep, ih, drawPoint_width]

lemma fillList_height (pbr pt pl : List Int) (rnd : Int → Int → Noise) :
    ∀ (cs : List (Int × Int)) (img : Img),
      (fillList img pbr pt pl rnd cs).height = img.height := by
  intro cs
  induction cs with
  | nil => intro img; rfl
  | cons c cs ih =>
    intro img
    have hstep : fillList img pbr pt pl rnd (c :: cs) =
        fillList (drawPoint img c.1 c.2 (fillColor pbr pt pl (rnd c.1 c.2)))
          pbr pt pl rnd cs := rfl
    rw [hstep, ih, drawPoint_height]

lemma fillList_mode (pbr pt pl : List Int) (rnd : Int → Int → Noise) :
    ∀ (cs : List (Int × Int)) (img : Img),
      (fillList img pbr pt pl rnd cs).mode = img.mode := by
  intro cs
  induction cs with
  | nil => intro img; rfl
  | cons c cs ih =>
    intro img
    have hstep : fillList img pbr pt pl rnd (c :: cs) =
        fillList (drawPoint img c.1 c.2 (fillColor pbr pt pl (rnd c.1 c.2)))
          pbr pt pl rnd cs := rfl
    rw [hstep, ih, drawPoint_mode]

/-- Characterization of the fill loop: a pixel holds the loop-body color
exactly when its coordinate was visited and lies on the canvas; every
other pixel is untouched.  The reference colors are read before the loop
runs, so the result does not depend on the visit order. -/
lemma fillList_px (pbr pt pl : List Int) (rnd : Int → Int → Noise) :
    ∀ (cs : List (Int × Int)) (img : Img) (a b : Int),
      (fillList img pbr pt pl rnd cs).px a b =
        if (a, b) ∈ cs ∧ img.inCanvas a b then fillColor pbr pt pl (rnd a b)
        else img.px a b := by
  intro cs
  induction cs with
  | nil =>
    intro img a b
    simp [fillList]
  | cons c cs ih =>
    obtain ⟨cx, cy⟩ := c
    intro img a b
    have hstep : fillList img pbr pt pl rnd ((cx, cy) :: cs) =
        fillList (drawPoint img cx cy (fillColor pbr pt pl (rnd cx cy)))
          pbr pt pl rnd cs := rfl
    rw [hstep, ih]
    by_cases hcan : img.inCanvas a b
    · by_cases hmem : (a, b) ∈ cs
      · rw [if_pos ⟨hmem, (drawPoint_inCanvas img cx cy _ a b).mpr hcan⟩,
          if_pos ⟨List.mem_cons_of_mem _ hmem, hcan⟩]
      · have hno : ¬ ((a, b) ∈ cs ∧
            (drawPoint img cx cy (fillColor pbr pt pl (rnd cx cy))).inCanvas a b) :=
          fun hh => hmem hh.1
        rw [if_neg hno]
        by_cases hab : a = cx ∧ b = cy
        · obtain ⟨h1, h2⟩ := hab
          subst h1
          subst h2
          rw [drawPoint_px_self img a b _ hcan,
            if_pos ⟨List.mem_cons_self _ _, hcan⟩]
        · rw [drawPoint_px_ne img cx cy _ a b hab]
          have hno2 : ¬ ((a, b) ∈ (cx, cy) :: cs ∧ img.inCanvas a b) := by
            intro hh
            rcases List.mem_cons.mp hh.1 with h | h
            · exact hab ⟨congrArg Prod.fst h, congrArg Prod.snd h⟩
            · exact hmem h
          rw [if_neg hno2]
    · have hno : ¬ ((a, b) ∈ cs ∧
          (drawPoint img cx cy (fillColor pbr pt pl (rnd cx cy))).inCanvas a b) :=
        fun hh => hcan ((drawPoint_inCanvas img cx cy _ a b).mp hh.2)
      rw [if_neg hno, if_neg (fun hh => hcan hh.2)]
      by_cases hab : a = cx ∧ b = cy
      · obtain ⟨h1, h2⟩ := hab
        subst h1
        subst h2
        exact drawPoint_px_out img a b _ a b hcan
      · exact drawPoint_px_ne img cx cy _ a b hab

lemma mem_intRangeGo : ∀ (n : Nat) (lo a : Int),
    a ∈ intRangeGo lo n ↔ lo ≤ a ∧ a < lo + n := by
  intro n
  induction n with
  | zero =>
    intro lo a
    simp [intRangeGo]
  | succ m ih =>
    intro lo a
    simp only [intRangeGo, List.mem_cons, ih (lo + 1) a]
    omega

lemma mem_intRange (lo hi a : Int) : a ∈ intRange lo hi ↔ lo ≤ a ∧ a < hi := by
  unfold intRange
  rw [mem_intRangeGo]
  omega

lemma mem_coordsXY (x1 x2 y1 y2 a b : Int) :
    (a, b) ∈ coordsXY x1 x2 y1 y2 ↔ x1 ≤ a ∧ a < x2 ∧ y1 ≤ b ∧ b < y2 := by
  unfold coordsXY
  simp only [List.mem_flatMap, List.mem_map, mem_intRange, Prod.mk.injEq]
  constructor
  · rintro ⟨x, hx, y, hy, rfl, rfl⟩
    exact ⟨hx.1, hx.2, hy.1, hy.2⟩
  · rintro ⟨h1, h2, h3, h4⟩
    exact ⟨a, ⟨h1, h2⟩, b, ⟨h3, h4⟩, rfl, rfl⟩

lemma mem_coordsYX (x1 x2 y1 y2 a b : Int) :
    (a, b) ∈ coordsYX x1 x2 y1 y2 ↔ x1 ≤ a ∧ a < x2 ∧ y1 ≤ b ∧ b < y2 := by
  unfold coordsYX
  simp only [List.mem_flatMap, List.mem_map, mem_intRange, Prod.mk.injEq]
  constructor
  · rintro ⟨y, hy, x, hx, rfl, rfl⟩
    exact ⟨hx.1, hx.2, hy.1, hy.2⟩
  · rintro ⟨h1, h2, h3, h4⟩
    exact ⟨b, ⟨h3, h4⟩, a, ⟨h1, h2⟩, rfl, rfl⟩

lemma fillRectXY_px (img : Img) (x1 x2 y1 y2 : Int) (pbr pt pl : List Int)
    (rnd : Int → Int → Noise) (a b : Int) :
    (fillRectXY img x1 x2 y1 y2 pbr pt pl rnd).px a b =
      if (x1 ≤ a ∧ a < x2 ∧ y1 ≤ b ∧ b < y2) ∧ img.inCanvas a b then
        fillColor pbr pt pl (rnd a b)
      else img.px a b := by
  unfold fillRectXY
  rw [fillList_px]
  exact if_congr (and_congr_left' (mem_coordsXY x1 x2 y1 y2 a b)) rfl rfl

lemma fillRectYX_px (img : Img) (x1 x2 y1 y2 : Int) (pbr pt pl : List Int)
    (rnd : Int → Int → Noise) (a b : Int) :
    (fillRectYX img x1 x2 y1 y2 pbr pt pl rnd).px a b =
      if (x1 ≤ a ∧ a < x2 ∧ y1 ≤ b ∧ b < y2) ∧ img.inCanvas a b then
        fillColor pbr pt pl (rnd a b)
      else img.px a b := by
  unfold fillRectYX
  rw [fillList_px]
  exact if_congr (and_congr_left' (mem_coordsYX x1 x2 y1 y2 a b)) rfl rfl

lemma fillRectXY_width (img : Img) (x1 x2 y1 y2 : Int) (pbr pt pl : List Int)
    (rnd : Int → Int → Noise) :
    (fillRectXY img x1 x2 y1 y2 pbr pt pl rnd).width = img.width :=
  fillList_width pbr pt pl rnd _ img

lemma fillRectXY_height (img : Img) (x1 x2 y1 y2 : Int) (pbr pt pl : List Int)
    (rnd : Int → Int → Noise) :
    (fillRectXY img x1 x2 y1 y2 pbr pt pl rnd).height = img.height :=
  fillList_height pbr pt pl rnd _ img

lemma fillRectXY_mode (img : Img) (x1 x2 y1 y2 : Int) (pbr pt pl : List Int)
    (rnd : Int → Int → Noise) :
    (fillRectXY img x1 x2 y1 y2 pbr pt pl rnd).mode = img.mode :=
  fillList_mode pbr pt pl rnd _ img

lemma convertRGB_width (img : Img) : (convertRGB img).width = img.width := by
  unfold convertRGB
  split <;> rfl

lemma convertRGB_height (img : Img) : (convertRGB img).height = img.height := by
  unfold convertRGB
  split <;> rfl

lemma convertRGB_mode (img : Img) : (convertRGB img).mode = Mode.RGB := by
  unfold convertRGB
  split
  · assumption
  · rfl

lemma convertRGB_px (img : Img) (a b : Int) :
    (convertRGB img).px a b = rgbOf img.mode (img.px a b) := by
  unfold convertRGB
  split
  · next h =>
    rw [h]
    rfl
  · rfl

lemma getpixel_in (img : Img) (x y : Int) (h : img.inCanvas x y) :
    getpixel img x y = some (img.px x y) := by
  unfold getpixel
  rw [if_pos h]

/-- Evaluation of the three reference reads for a nonempty image. -/
lemma sampleRefs_eq (img : Img) (hw : 1 ≤ img.width) (hh : 1 ≤ img.height) :
    sampleRefs img = some
      (img.px ((img.width : Int) - 1) ((img.height : Int) - 1),
       (if 0 < wmY1 img.height then
          img.px ((img.width : Int) - 1) (wmY1 img.height - 1)
        else img.px ((img.width : Int) - 1) ((img.height : Int) - 1)),
       (if 0 < wmX1 img.width then
          img.px (wmX1 img.width - 1) ((img.height : Int) - 1)
        else img.px ((img.width : Int) - 1) ((img.height : Int) - 1))) := by
  have hbr : img.inCanvas ((img.width : Int) - 1) ((img.height : Int) - 1) := by
    unfold Img.inCanvas
    omega
  unfold sampleRefs
  simp only [refLocBottomRight, refLocTop, refLocLeft]
  rw [getpixel_in img _ _ hbr]
  by_cases hy : 0 < wmY1 img.height
  · have htop : img.inCanvas ((img.width : Int) - 1) (wmY1 img.height - 1) := by
      unfold Img.inCanvas
      unfold wmY1 at hy ⊢
      omega
    rw [if_pos hy, getpixel_in img _ _ htop]
    by_cases hx : 0 < wmX1 img.width
    · have hleft : img.inCanvas (wmX1 img.width - 1) ((img.height : Int) - 1) := by
        unfold Img.inCanvas
        unfold wmX1 at hx ⊢
        omega
      rw [if_pos hx, getpixel_in img _ _ hleft]
      simp [if_pos hy, if_pos hx]
    · rw [if_neg hx]
      simp [if_pos hy, if_neg hx]
  · rw [if_neg hy]
    by_cases hx : 0 < wmX1 img.width
    · have hleft : img.inCanvas (wmX1 img.width - 1) ((img.height : Int) - 1) := by
        unfold Img.inCanvas
        unfold wmX1 at hx ⊢
        omega
      rw [if_pos hx, getpixel_in img _ _ hleft]
      simp [if_neg hy, if_pos hx]
    · rw [if_neg hx]
      simp [if_neg hy, if_neg hx]

/-- Evaluation of the page-processing step for a nonempty image. -/
lemma processImage_eq (img : Img) (rnd : Int → Int → Noise)
    (hw : 1 ≤ img.width) (hh : 1 ≤ img.height) :
    processImage img rnd = some (convertRGB (fillRectXY img
      (wmX1 img.width) (wmX2 img.width) (wmY1 img.height) (wmY2 img.height)
      (img.px ((img.width : Int) - 1) ((img.height : Int) - 1))
      (if 0 < wmY1 img.height then
         img.px ((img.width : Int) - 1) (wmY1 img.height - 1)
       else img.px ((img.width : Int) - 1) ((img.height : Int) - 1))
      (if 0 < wmX1 img.width then
         img.px (wmX1 img.width - 1) ((img.height : Int) - 1)
       else img.px ((img.width : Int) - 1) ((img.height : Int) - 1))
      rnd)) := by
  unfold processImage
  rw [sampleRefs_eq img hw hh]
  rfl

/-- The page-processing step, phrased through any successful reference
sampling. -/
lemma processImage_eq_refs (img : Img) (rnd : Int → Int → Noise)
    (pbr pt pl : List Int) (h : sampleRefs img = some (pbr, pt, pl)) :
    processImage img rnd = some (convertRGB (fillRectXY img
      (wmX1 img.width) (wmX2 img.width) (wmY1 img.height) (wmY2 img.height)
      pbr pt pl rnd)) := by
  unfold processImage
  rw [h]
  rfl

lemma pickColor_mem (pbr pt pl : List Int) (n : Nat) :
    pickColor pbr pt pl n = pbr ∨ pickColor pbr pt pl n = pt ∨
      pickColor pbr pt pl n = pl := by
  unfold pickColor
  split_ifs <;> tauto

lemma pickColor_length (pbr pt pl : List Int) (n : Nat) (k : Nat)
    (h1 : pbr.length = k) (h2 : pt.length = k) (h3 : pl.length = k) :
    (pickColor pbr pt pl n).length = k := by
  unfold pickColor
  split_ifs <;> assumption

lemma noisyColor_len3 (c : List Int) (d : Noise) (h : c.length = 3) :
    noisyColor c d = [clamp255 (c.getD 0 0 + d.dr), clamp255 (c.getD 1 0 + d.dg),
      clamp255 (c.getD 2 0 + d.db)] := by
  simp [noisyColor, h]

lemma noisyColor_len4 (c : List Int) (d : Noise) (h : c.length = 4) :
    noisyColor c d = [clamp255 (c.getD 0 0 + d.dr), clamp255 (c.getD 1 0 + d.dg),
      clamp255 (c.getD 2 0 + d.db), c.getD 3 0] := by
  simp [noisyColor, h]

lemma noisyColor_short (c : List Int) (d : Noise) (h : c.length < 3) :
    noisyColor c d = c := by
  unfold noisyColor
  rw [if_neg (by omega)]

lemma fillColor_length (pbr pt pl : List Int) (d : Noise) (m : Mode)
    (h1 : pbr.length = m.channels) (h2 : pt.length = m.channels)
    (h3 : pl.length = m.channels) :
    (fillColor pbr pt pl d).length = m.channels := by
  have hp := pickColor_length pbr pt pl d.choice m.channels h1 h2 h3
  unfold fillColor
  cases m with
  | RGB =>
    rw [noisyColor_len3 _ _ hp]
    rfl
  | RGBA =>
    rw [noisyColor_len4 _ _ hp]
    rfl
  | L =>
    rw [noisyColor_short _ _ (by rw [hp]; decide)]
    exact hp

lemma noisyColor_getD3 (c : List Int) (d : Noise) (h : c.length = 4) :
    (noisyColor c d).getD 3 0 = c.getD 3 0 := by
  rw [noisyColor_len4 _ _ h]
  rfl

lemma noisyColor_channel (c : List Int) (d : Noise)
    (hlen : c.length = 3 ∨ c.length = 4) (i : Nat) (hi : i < 3) :
    (noisyColor c d).getD i 0 =
      clamp255 (c.getD i 0 + (if i = 0 then d.dr else if i = 1 then d.dg else d.db)) := by
  rcases hlen with h | h
  · rw [noisyColor_len3 _ _ h]
    interval_cases i <;> simp
  · rw [noisyColor_len4 _ _ h]
    interval_cases i <;> simp

lemma imgRGB_WF : imgRGB.WF := by
  intro x y _
  refine ⟨rfl, ?_⟩
  intro v hv
  have hval : v = 10 ∨ v = 20 ∨ v = 30 := by simpa [imgRGB] using hv
  rcases hval with rfl | rfl | rfl <;> exact ⟨by decide, by decide⟩

lemma imgRGBA_WF : imgRGBA.WF := by
  intro x y _
  refine ⟨rfl, ?_⟩
  intro v hv
  have hval : v = 10 ∨ v = 20 ∨ v = 30 ∨ v = 40 := by simpa [imgRGBA] using hv
  rcases hval with rfl | rfl | rfl | rfl <;> exact ⟨by decide, by decide⟩

lemma rnd0_Admissible : Admissible rnd0 := by
  intro x y
  simp only [rnd0, noise0]
  decide

/-- The reference colors of a well-formed image all have the channel
count of its mode. -/
lemma sampleRefs_lengths (img : Img) (hw : 1 ≤ img.width) (hh : 1 ≤ img.height)
    (hwf : img.WF) (pbr pt pl : List Int)
    (h : sampleRefs img = some (pbr, pt, pl)) :
    pbr.length = img.mode.channels ∧ pt.length = img.mode.channels ∧
      pl.length = img.mode.channels := by
  have hbr : img.inCanvas ((img.width : Int) - 1) ((img.height : Int) - 1) := by
    unfold Img.inCanvas
    omega
  rw [sampleRefs_eq img hw hh] at h
  injection h with h
  rw [Prod.mk.injEq, Prod.mk.injEq] at h
  obtain ⟨h1, h2, h3⟩ := h
  subst h1
  subst h2
  subst h3
  refine ⟨(hwf _ _ hbr).1, ?_, ?_⟩
  · by_cases hy : 0 < wmY1 img.height
    · rw [if_pos hy]
      refine (hwf _ _ ?_).1
      unfold Img.inCanvas
      unfold wmY1 at hy ⊢
      omega
    · rw [if_neg hy]
      exact (hwf _ _ hbr).1
  · by_cases hx : 0 < wmX1 img.width
    · rw [if_pos hx]
      refine (hwf _ _ ?_).1
      unfold Img.inCanvas
      unfold wmX1 at hx ⊢
      omega
    · rw [if_neg hx]
      exact (hwf _ _ hbr).1

lemma getD_map_addFullPicture : ∀ (l : List Img) (i : Nat), i < l.length →
    (l.map addFullPicture).getD i defaultSlide =
      addFullPicture (l.getD i defaultImg) := by
  intro l
  induction l with
  | nil =>
    intro i h
    simp at h
  | cons x xs ih =>
    intro i h
    cases i with
    | zero => rfl
    | succ j =>
      have hj : j < xs.length := by simpa using h
      simpa [List.getD_cons_succ] using ih j hj

/-- The page loop succeeds exactly when every page does, preserving
count and order. -/
lemma processPages_spec : ∀ (imgs : List Img) (rnd : Nat → Int → Int → Noise)
    (k : Nat) (ps : List Img), processPages imgs rnd k = some ps →
    ps.length = imgs.length ∧
    ∀ i, i < imgs.length →
      processImage (imgs.getD i defaultImg) (rnd (k + i)) =
        some (ps.getD i defaultImg) := by
  intro imgs
  induction imgs with
  | nil =>
    intro rnd k ps h
    unfold processPages at h
    injection h with h
    subst h
    refine ⟨rfl, ?_⟩
    intro i hi
    simp at hi
  | cons img rest ih =>
    intro rnd k ps h
    unfold processPages at h
    rcases hp : processImage img (rnd k) with _ | p <;> rw [hp] at h
    · simp at h
    · rcases hr : processPages rest rnd (k + 1) with _ | ps' <;> rw [hr] at h
      · simp at h
      · injection h with h
        subst h
        obtain ⟨hlen, hall⟩ := ih rnd (k + 1) ps' hr
        refine ⟨by simp [hlen], ?_⟩
        intro i hi
        cases i with
        | zero => simpa using hp
        | succ j =>
          have hj : j < rest.length := by simpa using hi
          have harith : k + (j + 1) = (k + 1) + j := by omega
          rw [harith, List.getD_cons_succ, List.getD_cons_succ]
          exact hall j hj

/-- Claim C5: the watermark rectangle is computed from the page's own
pixel dimensions as x1 = width - 150, y1 = height - 35, x2 = width,
y2 = height; its size is the constant 150 by 35 pixels for every page
width and height (the geometry functions take only pixel dimensions, so
no DPI dependence exists), and a 1000 by 700 image yields the rectangle
(850, 665) to (1000, 700). -/
theorem claim5_rect_geometry :
    (∀ w : Nat, wmX2 w - wmX1 w = 150) ∧ (∀ h : Nat, wmY2 h - wmY1 h = 35) ∧
    wmX1 1000 = 850 ∧ wmY1 700 = 665 ∧ wmX2 1000 = 1000 ∧ wmY2 700 = 700 := by
  refine ⟨?_, ?_, by decide, by decide, by decide, by decide⟩
  · intro w
    unfold wmX1 wmX2
    omega
  · intro h
    unfold wmY1 wmY2
    omega

/-- Claim C8: when rasterization fails, the conversion surfaces a
SourceUnreadable error carrying the underlying cause, and no output
presentation is produced. -/
theorem claim8_source_unreadable (cause : String)
    (rnd : Nat → Int → Int → Noise) :
    remove_watermark_and_convert (Except.error cause) rnd =
      Except.error (ConvError.sourceUnreadable cause) ∧
    ∀ p : Presentation,
      remove_watermark_and_convert (Except.error cause) rnd ≠ Except.ok p := by
  refine ⟨rfl, ?_⟩
  intro p h
  simp [remove_watermark_and_convert] at h

/-- Claim C9: the watermark fill gives the same output image when the
two pixel loops are interchanged, with the same independent per-pixel
random draws, because all three reference colors are read before any
pixel is overwritten. -/
theorem claim9_loop_order (img : Img) (x1 x2 y1 y2 : Int)
    (pbr pt pl : List Int) (rnd : Int → Int → Noise) :
    fillRectXY img x1 x2 y1 y2 pbr pt pl rnd =
      fillRectYX img x1 x2 y1 y2 pbr pt pl rnd := by
  apply Img.ext
  · rw [fillRectXY_width]
    unfold fillRectYX
    rw [fillList_width]
  · rw [fillRectXY_height]
    unfold fillRectYX
    rw [fillList_height]
  · rw [fillRectXY_mode]
    unfold fillRectYX
    rw [fillList_mode]
  · funext a b
    rw [fillRectXY_px, fillRectYX_px]

/-- Claim C1 counterexample: on a 1000 by 700 page the bottom-right
reference color is read at (999, 699), a location inside the rectangle
(850, 665) to (1000, 700) that the fill loop subsequently overwrites;
so it is false that all three sampled locations lie outside the
rectangle. -/
theorem claim1_cex_bottom_right_inside :
    refLocBottomRight img1000 = (999, 699) ∧ inRect 1000 700 999 699 := by
  decide

/-- Claim C1 amended: the three reference colors are sampled at fixed
locations: the bottom-right-most pixel (width-1, height-1), the pixel
directly above the top-right corner of the region (width-1, y1-1) when
y1 > 0, and the pixel directly left of the bottom-left corner
(x1-1, height-1) when x1 > 0.  The top and left locations lie outside
the overwritten rectangle; the bottom-right location lies inside it
(it is read before any pixel is overwritten). -/
theorem claim1_ref_locations (img : Img) (hw : 1 ≤ img.width)
    (hh : 1 ≤ img.height) :
    sampleRefs img = some
      (img.px (refLocBottomRight img).1 (refLocBottomRight img).2,
       (if 0 < wmY1 img.height then img.px (refLocTop img).1 (refLocTop img).2
        else img.px (refLocBottomRight img).1 (refLocBottomRight img).2),
       (if 0 < wmX1 img.width then img.px (refLocLeft img).1 (refLocLeft img).2
        else img.px (refLocBottomRight img).1 (refLocBottomRight img).2)) ∧
    ¬ inRect img.width img.height (refLocTop img).1 (refLocTop img).2 ∧
    ¬ inRect img.width img.height (refLocLeft img).1 (refLocLeft img).2 ∧
    inRect img.width img.height (refLocBottomRight img).1
      (refLocBottomRight img).2 := by
  refine ⟨sampleRefs_eq img hw hh, ?_, ?_, ?_⟩
  · unfold inRect refLocTop wmX1 wmX2 wmY1 wmY2
    omega
  · unfold inRect refLocLeft wmX1 wmX2 wmY1 wmY2
    omega
  · unfold inRect refLocBottomRight wmX1 wmX2 wmY1 wmY2
    omega

theorem claim1_ref_locations_witness :
    1 ≤ imgRGB.width ∧ 1 ≤ imgRGB.height ∧
    (sampleRefs imgRGB = some
      (imgRGB.px (refLocBottomRight imgRGB).1 (refLocBottomRight imgRGB).2,
       (if 0 < wmY1 imgRGB.height then
          imgRGB.px (refLocTop imgRGB).1 (refLocTop imgRGB).2
        else imgRGB.px (refLocBottomRight imgRGB).1 (refLocBottomRight imgRGB).2),
       (if 0 < wmX1 imgRGB.width then
          imgRGB.px (refLocLeft imgRGB).1 (refLocLeft imgRGB).2
        else imgRGB.px (refLocBottomRight imgRGB).1 (refLocBottomRight imgRGB).2)) ∧
    ¬ inRect imgRGB.width imgRGB.height (refLocTop imgRGB).1 (refLocTop imgRGB).2 ∧
    ¬ inRect imgRGB.width imgRGB.height (refLocLeft imgRGB).1 (refLocLeft imgRGB).2 ∧
    inRect imgRGB.width imgRGB.height (refLocBottomRight imgRGB).1
      (refLocBottomRight imgRGB).2) :=
  ⟨by decide, by decide, claim1_ref_locations imgRGB (by decide) (by decide)⟩

/-- Claim C6: if a reference offset would fall outside the image (the
top reference when y1 - 1 < 0, the left reference when x1 - 1 < 0), the
bottom-right reference color is substituted for that reference; in
every other case the reference is read at its exact offset, with no
general coordinate clamping. -/
theorem claim6_fallback (img : Img) (hw : 1 ≤ img.width)
    (hh : 1 ≤ img.height) :
    ∃ pbr pt pl, sampleRefs img = some (pbr, pt, pl) ∧
      pbr = img.px ((img.width : Int) - 1) ((img.height : Int) - 1) ∧
      (wmY1 img.height - 1 < 0 → pt = pbr) ∧
      (0 < wmY1 img.height →
        pt = img.px ((img.width : Int) - 1) (wmY1 img.height - 1)) ∧
      (wmX1 img.width - 1 < 0 → pl = pbr) ∧
      (0 < wmX1 img.width →
        pl = img.px (wmX1 img.width - 1) ((img.height : Int) - 1)) := by
  refine ⟨_, _, _, sampleRefs_eq img hw hh, rfl, ?_, ?_, ?_, ?_⟩
  · intro hy
    rw [if_neg (by omega : ¬ 0 < wmY1 img.height)]
  · intro hy
    rw [if_pos hy]
  · intro hx
    rw [if_neg (by omega : ¬ 0 < wmX1 img.width)]
  · intro hx
    rw [if_pos hx]

theorem claim6_fallback_witness :
    1 ≤ imgSmall.width ∧ 1 ≤ imgSmall.height ∧
    (∃ pbr pt pl, sampleRefs imgSmall = some (pbr, pt, pl) ∧
      pbr = imgSmall.px ((imgSmall.width : Int) - 1) ((imgSmall.height : Int) - 1) ∧
      (wmY1 imgSmall.height - 1 < 0 → pt = pbr) ∧
      (0 < wmY1 imgSmall.height →
        pt = imgSmall.px ((imgSmall.width : Int) - 1) (wmY1 imgSmall.height - 1)) ∧
      (wmX1 imgSmall.width - 1 < 0 → pl = pbr) ∧
      (0 < wmX1 imgSmall.width →
        pl = imgSmall.px (wmX1 imgSmall.width - 1) ((imgSmall.height : Int) - 1))) :=
  ⟨by decide, by decide, claim6_fallback imgSmall (by decide) (by decide)⟩

/-- Claim C10: for every nonempty page image, including pages smaller
than the 150 by 35 watermark size, the compositor performs no
out-of-bounds pixel read: processing succeeds, the bottom-right read is
always in canvas, the guarded top and left reads are in canvas whenever
taken, and the fill writes exactly the intersection of the rectangle
with the canvas, leaving every other pixel untouched. -/
theorem claim10_safety (img : Img) (rnd : Int → Int → Noise)
    (hw : 1 ≤ img.width) (hh : 1 ≤ img.height) :
    (∃ out, processImage img rnd = some out) ∧
    img.inCanvas ((img.width : Int) - 1) ((img.height : Int) - 1) ∧
    (0 < wmY1 img.height →
      img.inCanvas ((img.width : Int) - 1) (wmY1 img.height - 1)) ∧
    (0 < wmX1 img.width →
      img.inCanvas (wmX1 img.width - 1) ((img.height : Int) - 1)) ∧
    ∃ pbr pt pl, sampleRefs img = some (pbr, pt, pl) ∧
      (∀ a b : Int, inRect img.width img.height a b → img.inCanvas a b →
        (fillRectXY img (wmX1 img.width) (wmX2 img.width) (wmY1 img.height)
          (wmY2 img.height) pbr pt pl rnd).px a b =
          fillColor pbr pt pl (rnd a b)) ∧
      (∀ a b : Int, ¬ (inRect img.width img.height a b ∧ img.inCanvas a b) →
        (fillRectXY img (wmX1 img.width) (wmX2 img.width) (wmY1 img.height)
          (wmY2 img.height) pbr pt pl rnd).px a b = img.px a b) := by
  refine ⟨⟨_, processImage_eq img rnd hw hh⟩, ?_, ?_, ?_, ?_⟩
  · unfold Img.inCanvas
    omega
  · intro hy
    unfold Img.inCanvas
    unfold wmY1 at hy ⊢
    omega
  · intro hx
    unfold Img.inCanvas
    unfold wmX1 at hx ⊢
    omega
  · refine ⟨_, _, _, sampleRefs_eq img hw hh, ?_, ?_⟩
    · intro a b hrect hcan
      rw [fillRectXY_px, if_pos ⟨hrect, hcan⟩]
    · intro a b hno
      rw [fillRectXY_px, if_neg (fun hc => hno ⟨hc.1, hc.2⟩)]

theorem claim10_safety_witness :
    1 ≤ imgSmall.width ∧ 1 ≤ imgSmall.height ∧
    ((∃ out, processImage imgSmall rnd0 = some out) ∧
    imgSmall.inCanvas ((imgSmall.width : Int) - 1) ((imgSmall.height : Int) - 1) ∧
    (0 < wmY1 imgSmall.height →
      imgSmall.inCanvas ((imgSmall.width : Int) - 1) (wmY1 imgSmall.height - 1)) ∧
    (0 < wmX1 imgSmall.width →
      imgSmall.inCanvas (wmX1 imgSmall.width - 1) ((imgSmall.height : Int) - 1)) ∧
    ∃ pbr pt pl, sampleRefs imgSmall = some (pbr, pt, pl) ∧
      (∀ a b : Int, inRect imgSmall.width imgSmall.height a b →
        imgSmall.inCanvas a b →
        (fillRectXY imgSmall (wmX1 imgSmall.width) (wmX2 imgSmall.width)
          (wmY1 imgSmall.height) (wmY2 imgSmall.height) pbr pt pl rnd0).px a b =
          fillColor pbr pt pl (rnd0 a b)) ∧
      (∀ a b : Int, ¬ (inRect imgSmall.width imgSmall.height a b ∧
          imgSmall.inCanvas a b) →
        (fillRectXY imgSmall (wmX1 imgSmall.width) (wmX2 imgSmall.width)
          (wmY1 imgSmall.height) (wmY2 imgSmall.height) pbr pt pl rnd0).px a b =
          imgSmall.px a b)) :=
  ⟨by decide, by decide, claim10_safety imgSmall rnd0 (by decide) (by decide)⟩

lemma rgbOf_length (m : Mode) (c : List Int) (h : c.length = m.channels) :
    (rgbOf m c).length = 3 := by
  cases m with
  | RGB => exact h
  | RGBA =>
    rw [show rgbOf Mode.RGBA c = c.take 3 from rfl, List.length_take, h]
    decide
  | L => rfl

/-- The pixel of an optional image at a fixed coordinate. -/
def outPixel (o : Option Img) (x y : Int) : Option (List Int) :=
  o.map (fun im => im.px x y)

/-- Claim C2 counterexample: for an RGBA page image the compositor
output is not byte-identical outside the watermark rectangle: pixel
(0, 0) of a 160 by 40 RGBA image lies outside the rectangle yet its
value changes from four channels to three, because the final RGB
conversion discards the alpha channel of every pixel. -/
theorem claim2_cex_rgba_outside_changed :
    ¬ inRect 160 40 0 0 ∧
    imgRGBA.px 0 0 = [10, 20, 30, 40] ∧
    outPixel (processImage imgRGBA rnd0) 0 0 = some [10, 20, 30] := by
  refine ⟨by decide, rfl, ?_⟩
  rw [processImage_eq imgRGBA rnd0 (by decide) (by decide)]
  unfold outPixel
  rw [Option.map_some', convertRGB_px, fillRectXY_mode, fillRectXY_px,
    if_neg (by decide)]
  rfl

/-- Claim C2 amended: the compositor output always has the width and
height of the input; for a 3-channel (RGB) page image, the mode the
rasterizer produces in this program, every pixel outside the computed
watermark rectangle is byte-identical to the input pixel; for an RGBA
page image, every pixel outside the rectangle keeps its three color
channel values and only loses its alpha channel to the final RGB
conversion. -/
theorem claim2_frame_effect (img : Img) (rnd : Int → Int → Noise)
    (hw : 1 ≤ img.width) (hh : 1 ≤ img.height) :
    ∃ out, processImage img rnd = some out ∧
      out.width = img.width ∧ out.height = img.height ∧
      (img.mode = Mode.RGB → ∀ a b : Int, ¬ inRect img.width img.height a b →
        out.px a b = img.px a b) ∧
      (img.mode = Mode.RGBA → ∀ a b : Int, ¬ inRect img.width img.height a b →
        out.px a b = (img.px a b).take 3) := by
  rw [processImage_eq img rnd hw hh]
  refine ⟨_, rfl, ?_, ?_, ?_, ?_⟩
  · rw [convertRGB_width, fillRectXY_width]
  · rw [convertRGB_height, fillRectXY_height]
  · intro hmode a b hout
    rw [convertRGB_px, fillRectXY_mode, hmode]
    simp only [rgbOf]
    rw [fillRectXY_px, if_neg (fun hc => hout hc.1)]
  · intro hmode a b hout
    rw [convertRGB_px, fillRectXY_mode, hmode]
    simp only [rgbOf]
    rw [fillRectXY_px, if_neg (fun hc => hout hc.1)]

theorem claim2_frame_effect_witness :
    1 ≤ imgRGB.width ∧ 1 ≤ imgRGB.height ∧
    (∃ out, processImage imgRGB rnd0 = some out ∧
      out.width = imgRGB.width ∧ out.height = imgRGB.height ∧
      (imgRGB.mode = Mode.RGB →
        ∀ a b : Int, ¬ inRect imgRGB.width imgRGB.height a b →
          out.px a b = imgRGB.px a b) ∧
      (imgRGB.mode = Mode.RGBA →
        ∀ a b : Int, ¬ inRect imgRGB.width imgRGB.height a b →
          out.px a b = (imgRGB.px a b).take 3)) :=
  ⟨by decide, by decide, claim2_frame_effect imgRGB rnd0 (by decide) (by decide)⟩

/-- Claim C3: for every pixel inside the watermark rectangle of an RGB
or RGBA page, the written color is obtained by selecting one of the
three reference colors according to the per-pixel choice draw, adding
to each of its three color channels an independent offset drawn from
-2..2 and clamping to 0..255, while a fourth (alpha) component is
copied unperturbed from the chosen reference color. -/
theorem claim3_inside_pixels (img : Img) (rnd : Int → Int → Noise) (a b : Int)
    (hw : 1 ≤ img.width) (hh : 1 ≤ img.height) (hwf : img.WF)
    (hmode : img.mode = Mode.RGB ∨ img.mode = Mode.RGBA)
    (hrnd : Admissible rnd)
    (hrect : inRect img.width img.height a b) (hcan : img.inCanvas a b) :
    ∃ pbr pt pl, sampleRefs img = some (pbr, pt, pl) ∧
      ∃ c, c = pickColor pbr pt pl (rnd a b).choice ∧
        (c = pbr ∨ c = pt ∨ c = pl) ∧
        (fillRectXY img (wmX1 img.width) (wmX2 img.width) (wmY1 img.height)
          (wmY2 img.height) pbr pt pl rnd).px a b = noisyColor c (rnd a b) ∧
        (∀ i : Nat, i < 3 → ∃ d : Int, -2 ≤ d ∧ d ≤ 2 ∧
          (noisyColor c (rnd a b)).getD i 0 = clamp255 (c.getD i 0 + d)) ∧
        (img.mode = Mode.RGBA →
          (noisyColor c (rnd a b)).getD 3 0 = c.getD 3 0 ∧
          (noisyColor c (rnd a b)).length = 4) ∧
        (img.mode = Mode.RGB → (noisyColor c (rnd a b)).length = 3) := by
  obtain ⟨pbr, pt, pl, href⟩ : ∃ pbr pt pl, sampleRefs img = some (pbr, pt, pl) :=
    ⟨_, _, _, sampleRefs_eq img hw hh⟩
  obtain ⟨l1, l2, l3⟩ := sampleRefs_lengths img hw hh hwf pbr pt pl href
  have hclen := pickColor_length pbr pt pl ((rnd a b).choice) _ l1 l2 l3
  have hlen34 : (pickColor pbr pt pl ((rnd a b).choice)).length = 3 ∨
      (pickColor pbr pt pl ((rnd a b).choice)).length = 4 := by
    rcases hmode with h | h
    · left
      rw [hclen, h]
      rfl
    · right
      rw [hclen, h]
      rfl
  refine ⟨pbr, pt, pl, href, pickColor pbr pt pl ((rnd a b).choice), rfl,
    pickColor_mem _ _ _ _, ?_, ?_, ?_, ?_⟩
  · rw [fillRectXY_px, if_pos ⟨hrect, hcan⟩]
    rfl
  · intro i hi
    have hadm := hrnd a b
    refine ⟨if i = 0 then (rnd a b).dr else if i = 1 then (rnd a b).dg
      else (rnd a b).db, ?_, ?_, noisyColor_channel _ _ hlen34 i hi⟩
    · split_ifs <;> omega
    · split_ifs <;> omega
  · intro h4
    have hlen4 : (pickColor pbr pt pl ((rnd a b).choice)).length = 4 := by
      rw [hclen, h4]
      rfl
    refine ⟨noisyColor_getD3 _ _ hlen4, ?_⟩
    rw [noisyColor_len4 _ _ hlen4]
    rfl
  · intro h3
    have hlen3 : (pickColor pbr pt pl ((rnd a b).choice)).length = 3 := by
      rw [hclen, h3]
      rfl
    rw [noisyColor_len3 _ _ hlen3]
    rfl

theorem claim3_inside_pixels_witness :
    1 ≤ imgRGB.width ∧ 1 ≤ imgRGB.height ∧
    (imgRGB.mode = Mode.RGB ∨ imgRGB.mode = Mode.RGBA) ∧
    inRect imgRGB.width imgRGB.height 20 10 ∧ imgRGB.inCanvas 20 10 ∧
    (∃ pbr pt pl, sampleRefs imgRGB = some (pbr, pt, pl) ∧
      ∃ c, c = pickColor pbr pt pl (rnd0 20 10).choice ∧
        (c = pbr ∨ c = pt ∨ c = pl) ∧
        (fillRectXY imgRGB (wmX1 imgRGB.width) (wmX2 imgRGB.width)
          (wmY1 imgRGB.height) (wmY2 imgRGB.height) pbr pt pl rnd0).px 20 10 =
          noisyColor c (rnd0 20 10) ∧
        (∀ i : Nat, i < 3 → ∃ d : Int, -2 ≤ d ∧ d ≤ 2 ∧
          (noisyColor c (rnd0 20 10)).getD i 0 = clamp255 (c.getD i 0 + d)) ∧
        (imgRGB.mode = Mode.RGBA →
          (noisyColor c (rnd0 20 10)).getD 3 0 = c.getD 3 0 ∧
          (noisyColor c (rnd0 20 10)).length = 4) ∧
        (imgRGB.mode = Mode.RGB → (noisyColor c (rnd0 20 10)).length = 3)) :=
  ⟨by decide, by decide, Or.inl rfl, by decide, by decide,
    claim3_inside_pixels imgRGB rnd0 20 10 (by decide) (by decide) imgRGB_WF
      (Or.inl rfl) rnd0_Admissible (by decide) (by decide)⟩

/-- Claim C7: every image handed to the deck assembler is 3-channel:
processing always outputs an RGB-mode image whose canvas pixels all
have exactly three channel values, converting from RGBA or grayscale
when needed and discarding any alpha channel. -/
theorem claim7_rgb_normalization (img : Img) (rnd : Int → Int → Noise)
    (hw : 1 ≤ img.width) (hh : 1 ≤ img.height) (hwf : img.WF) :
    ∃ out, processImage img rnd = some out ∧ out.mode = Mode.RGB ∧
      (∀ a b : Int, out.inCanvas a b → (out.px a b).length = 3) ∧
      (img.mode = Mode.RGBA → ∀ a b : Int, ¬ inRect img.width img.height a b →
        out.px a b = (img.px a b).take 3) := by
  obtain ⟨pbr, pt, pl, href⟩ : ∃ pbr pt pl, sampleRefs img = some (pbr, pt, pl) :=
    ⟨_, _, _, sampleRefs_eq img hw hh⟩
  obtain ⟨l1, l2, l3⟩ := sampleRefs_lengths img hw hh hwf pbr pt pl href
  rw [processImage_eq_refs img rnd pbr pt pl href]
  refine ⟨_, rfl, convertRGB_mode _, ?_, ?_⟩
  · intro a b hcano
    have hcan : img.inCanvas a b := by
      unfold Img.inCanvas at hcano ⊢
      rw [convertRGB_width, convertRGB_height, fillRectXY_width,
        fillRectXY_height] at hcano
      exact hcano
    rw [convertRGB_px, fillRectXY_mode, fillRectXY_px]
    apply rgbOf_length
    split_ifs
    · exact fillColor_length pbr pt pl _ _ l1 l2 l3
    · exact (hwf a b hcan).1
  · intro hmode a b hout
    rw [convertRGB_px, fillRectXY_mode, hmode]
    simp only [rgbOf]
    rw [fillRectXY_px, if_neg (fun hc => hout hc.1)]

theorem claim7_rgb_normalization_witness :
    1 ≤ imgRGBA.width ∧ 1 ≤ imgRGBA.height ∧
    (∃ out, processImage imgRGBA rnd0 = some out ∧ out.mode = Mode.RGB ∧
      (∀ a b : Int, out.inCanvas a b → (out.px a b).length = 3) ∧
      (imgRGBA.mode = Mode.RGBA →
        ∀ a b : Int, ¬ inRect imgRGBA.width imgRGBA.height a b →
          out.px a b = (imgRGBA.px a b).take 3)) :=
  ⟨by decide, by decide,
    claim7_rgb_normalization imgRGBA rnd0 (by decide) (by decide) imgRGBA_WF⟩

/-- Claim C4: for every document whose pages all process successfully,
the conversion returns a deck with exactly one slide per input page, in
input order: slide i holds exactly one picture, placed at the origin
with the full canvas size, and its image is the processed image of input
page i. -/
theorem claim4_deck_assembly (imgs : List Img) (rnd : Nat → Int → Int → Noise)
    (ps : List Img) (h : processPages imgs rnd 0 = some ps) :
    remove_watermark_and_convert (Except.ok imgs) rnd =
      Except.ok (buildPresentation ps) ∧
    (buildPresentation ps).slides.length = imgs.length ∧
    ∀ i, i < imgs.length →
      processImage (imgs.getD i defaultImg) (rnd i) =
        some (ps.getD i defaultImg) ∧
      (buildPresentation ps).slides.getD i defaultSlide =
        addFullPicture (ps.getD i defaultImg) ∧
      ((buildPresentation ps).slides.getD i defaultSlide).pictures =
        [{ image := ps.getD i defaultImg, left := 0, top := 0,
           width := slideWidthEMU, height := slideHeightEMU }] := by
  obtain ⟨hlen, hall⟩ := processPages_spec imgs rnd 0 ps h
  refine ⟨?_, ?_, ?_⟩
  · simp [remove_watermark_and_convert, h]
  · simp [buildPresentation, hlen]
  · intro i hi
    have hp := hall i hi
    have hip : i < ps.length := by omega
    refine ⟨by simpa using hp, ?_, ?_⟩
    · exact getD_map_addFullPicture ps i hip
    · rw [show (buildPresentation ps).slides = ps.map addFullPicture from rfl,
        getD_map_addFullPicture ps i hip]
      rfl

/-- The processed form of the concrete RGB test image. -/
def procImgRGB : Img :=
  convertRGB (fillRectXY imgRGB (wmX1 imgRGB.width) (wmX2 imgRGB.width)
    (wmY1 imgRGB.height) (wmY2 imgRGB.height)
    (imgRGB.px ((imgRGB.width : Int) - 1) ((imgRGB.height : Int) - 1))
    (imgRGB.px ((imgRGB.width : Int) - 1) (wmY1 imgRGB.height - 1))
    (imgRGB.px (wmX1 imgRGB.width - 1) ((imgRGB.height : Int) - 1)) rnd0)

lemma processImage_imgRGB : processImage imgRGB rnd0 = some procImgRGB := by
  rw [processImage_eq imgRGB rnd0 (by decide) (by decide),
    if_pos (by decide : (0 : Int) < wmY1 imgRGB.height),
    if_pos (by decide : (0 : Int) < wmX1 imgRGB.width)]
  rfl

lemma processPages_single : processPages [imgRGB] pageRnd0 0 = some [procImgRGB] := by
  simp [processPages, pageRnd0, processImage_imgRGB]

theorem claim4_deck_assembly_witness :
    processPages [imgRGB] pageRnd0 0 = some [procImgRGB] ∧
    (remove_watermark_and_convert (Except.ok [imgRGB]) pageRnd0 =
       Except.ok (buildPresentation [procImgRGB]) ∧
     (buildPresentation [procImgRGB]).slides.length = [imgRGB].length ∧
     ∀ i, i < [imgRGB].length →
       processImage ([imgRGB].getD i defaultImg) (pageRnd0 i) =
         some ([procImgRGB].getD i defaultImg) ∧
       (buildPresentation [procImgRGB]).slides.getD i defaultSlide =
         addFullPicture ([procImgRGB].getD i defaultImg) ∧
       ((buildPresentation [procImgRGB]).slides.getD i defaultSlide).pictures =
         [{ image := [procImgRGB].getD i defaultImg, left := 0, top := 0,
            width := slideWidthEMU, height := slideHeightEMU }]) :=
  ⟨processPages_single,
    claim4_deck_assembly [imgRGB] pageRnd0 [procImgRGB] processPages_single⟩

end Xtrans
